import Mathlib

/-!
Verification development for the crio-lxc lifecycle commands
(`create`, `start`, `state`), shallowly embedded from the Go sources
`cmd/create.go`, `cmd/state.go` and the `start` command file.

Go strings are embedded as Lean `String`; the filesystem, the LXC engine's
container records and the sync fifo buffers are carried in an explicit
`Sys` state; each command is a pure function from `Sys` to a result,
fallible code returning `Except Err`.  Externally observable actions
(directory creation, fifo creation, config-item registration, launching
the container init, fifo reads) are recorded as an `Event` trace so that
ordering claims can be stated.
-/

namespace CrioLxc

/-! ### Character-list split and join

`strings.Join` from the Go standard library, specialised to the two
separators the source uses (`","` and `" "`, both single characters),
modelled on the underlying character list. -/

/-- Embeds Go `strings.Join(elems, sep)` on character lists: the
concatenation of `elems` interleaved with the separator. -/
def goJoinL (sep : Char) : List (List Char) → List Char
  | [] => []
  | [x] => x
  | x :: xs => x ++ sep :: goJoinL sep xs

/-- Modelled from the spec: the read-back direction of the round-trip
(the configuration-file reader is not part of the sources).  Splits a
character list at every occurrence of the separator, the inverse of
`goJoinL` on separator-free parts; mirrors Go `strings.Split`. -/
def splitCharL (sep : Char) : List Char → List (List Char)
  | [] => [[]]
  | c :: cs =>
    let r := splitCharL sep cs
    if c = sep then [] :: r
    else (c :: r.headD []) :: r.tail

/-- Go `strings.Join` on Lean strings (single-character separator). -/
def goJoin (sep : Char) (elems : List String) : String :=
  ⟨goJoinL sep (elems.map String.data)⟩

/-- Modelled from the spec: Go `strings.Split` on Lean strings
(single-character separator), used only to read saved values back. -/
def goSplit (sep : Char) (s : String) : List String :=
  (splitCharL sep s.data).map String.mk

theorem splitCharL_ne_nil (sep : Char) (l : List Char) : splitCharL sep l ≠ [] := by
  cases l with
  | nil => simp [splitCharL]
  | cons c cs =>
    simp only [splitCharL]
    split <;> simp

theorem splitCharL_cons_ne (sep c : Char) (cs : List Char) (h : c ≠ sep) :
    splitCharL sep (c :: cs) =
      (c :: (splitCharL sep cs).headD []) :: (splitCharL sep cs).tail := by
  simp [splitCharL, h]

/-- Splitting a separator-free list yields that list alone. -/
theorem splitCharL_no_sep (sep : Char) (p : List Char) (h : sep ∉ p) :
    splitCharL sep p = [p] := by
  induction p with
  | nil => rfl
  | cons c cs ih =>
    have hc : c ≠ sep := fun hc => h (hc ▸ List.mem_cons_self c cs)
    have hcs : sep ∉ cs := fun hm => h (List.mem_cons_of_mem c hm)
    rw [splitCharL_cons_ne sep c cs hc, ih hcs]
    rfl

/-- Splitting past a separator-free head segment peels it off. -/
theorem splitCharL_append_sep (sep : Char) (p rest : List Char) (h : sep ∉ p) :
    splitCharL sep (p ++ sep :: rest) = p :: splitCharL sep rest := by
  induction p with
  | nil => simp [splitCharL]
  | cons c cs ih =>
    have hc : c ≠ sep := fun hc => h (hc ▸ List.mem_cons_self c cs)
    have hcs : sep ∉ cs := fun hm => h (List.mem_cons_of_mem c hm)
    rw [List.cons_append, splitCharL_cons_ne sep c (cs ++ sep :: rest) hc, ih hcs]
    rfl

/-- Character-list level round trip: splitting a join recovers the parts
when no part contains the separator and the list of parts is nonempty. -/
theorem splitCharL_goJoinL (sep : Char) (parts : List (List Char))
    (hne : parts ≠ []) (hsep : ∀ p ∈ parts, sep ∉ p) :
    splitCharL sep (goJoinL sep parts) = parts := by
  induction parts with
  | nil => exact absurd rfl hne
  | cons x xs ih =>
    cases xs with
    | nil =>
      rw [goJoinL, splitCharL_no_sep sep x (hsep x (List.mem_cons_self x []))]
    | cons y ys =>
      rw [goJoinL, splitCharL_append_sep sep x (goJoinL sep (y :: ys))
        (hsep x (List.mem_cons_self x (y :: ys)))]
      rw [ih (by simp) (fun p hp => hsep p (List.mem_cons_of_mem x hp))]
      simp

/-- A character distinct from the separator and absent from every part is
absent from the join. -/
theorem not_mem_goJoinL (sep c : Char) (parts : List (List Char))
    (hc : c ≠ sep) (h : ∀ p ∈ parts, c ∉ p) : c ∉ goJoinL sep parts := by
  induction parts with
  | nil => simp [goJoinL]
  | cons x xs ih =>
    cases xs with
    | nil => exact h x (List.mem_cons_self x [])
    | cons y ys =>
      rw [goJoinL]
      · intro hmem
        rcases List.mem_append.1 hmem with hx | hrest
        · exact h x (List.mem_cons_self x (y :: ys)) hx
        · rcases List.mem_cons.1 hrest with hs | hj
          · exact hc hs
          · exact ih (fun p hp => h p (List.mem_cons_of_mem x hp)) hj
      · simp

theorem string_data_append (a b : String) : (a ++ b).data = a.data ++ b.data := rfl

theorem goJoin_data (sep : Char) (elems : List String) :
    (goJoin sep elems).data = goJoinL sep (elems.map String.data) := rfl

/-- String-level round trip for `goJoin`/`goSplit`. -/
theorem goSplit_goJoin (sep : Char) (elems : List String)
    (hne : elems ≠ []) (hsep : ∀ e ∈ elems, sep ∉ e.data) :
    goSplit sep (goJoin sep elems) = elems := by
  unfold goSplit
  rw [goJoin_data, splitCharL_goJoinL sep (elems.map String.data)
    (by simpa using hne)
    (by intro p hp; rcases List.mem_map.1 hp with ⟨e, he, rfl⟩; exact hsep e he)]
  rw [List.map_map]
  have : (String.mk ∘ String.data) = id := by
    funext s; rfl
  rw [this, List.map_id]

/-! ### Data model

Embeds the parts of `specs.Spec` (OCI runtime spec, an external
collaborator consumed as a parsed value object) that `configureContainer`
reads, the LXC engine's per-container record, and the explicit system
state shared between command invocations. -/

/-- One entry of `spec.Mounts`: Go struct fields Source, Destination,
Type (renamed `mountType`, `type` being a Lean keyword) and Options. -/
structure Mount where
  source : String
  destination : String
  mountType : String
  options : List String
deriving DecidableEq, Repr

/-- The fields of `spec.Process` that the sources read. -/
structure ProcessSpec where
  env : List String
  args : List String
  cwd : String
  terminal : Bool
deriving DecidableEq, Repr

/-- The fields of the parsed bundle `specs.Spec` that the sources read
(`root` embeds `spec.Root.Path`). -/
structure Spec where
  root : String
  mounts : List Mount
  process : ProcessSpec
  hostname : String
deriving DecidableEq, Repr

/-- The engine-owned container record: its running predicate and the
ordered list of configuration items registered with `SetConfigItem`
(lxc list-valued keys accumulate; values are read back per key in
registration order, as `go-lxc`'s `ConfigItem` does). -/
structure ContainerRecord where
  running : Bool
  configItems : List (String × String)
deriving DecidableEq, Repr

/-- The filesystem-plus-engine state shared between the separate command
process invocations: engine records by container identity, existing
plain paths (directories, regular files), named-pipe buffers by path,
and saved configuration files (path to the item list written there). -/
structure Sys where
  records : List (String × ContainerRecord)
  files : List String
  fifos : List (String × String)
  configFiles : List (String × List (String × String))
deriving DecidableEq, Repr

/-- Error taxonomy of the commands; each constructor corresponds to one
`return fmt.Errorf`/`errors.Wrap` site in the sources. -/
inductive Err where
  | usage
  | alreadyExists (id : String)
  | notFound (id : String)
  | alreadyRunning (id : String)
  | barrierMissing (path : String)
  | ioFailure (msg : String)
  | bundleLoadFailed
deriving DecidableEq, Repr

/-- Externally observable actions of a command invocation, in program
order. -/
inductive Event where
  | mkdirAll (path : String)
  | writeFile (path : String)
  | setConfigItem (key value : String)
  | mkfifo (path : String)
  | saveConfigFile (path : String)
  | launchInit (id : String)
  | openFifoRdonly (path : String)
  | readAllFifo (path : String) (data : String)
deriving DecidableEq, Repr

/-- Outcome of a Go function that can also panic (index out of range),
distinguishing a panic from a returned error. -/
inductive GoOutcome (α : Type) where
  | panics
  | fails (e : Err)
  | ok (v : α)
deriving DecidableEq, Repr

/-! ### Paths and engine predicates -/

/-- Modelled from the spec: the well-known root directory keying all
per-container on-disk state; the constant itself is defined in a source
file not included here, but both the embedded hook script and
`startContainer` hard-code `/var/lib/lxc`. -/
def LXC_PATH : String := "/var/lib/lxc"

/-- Go `filepath.Join` restricted to the already-clean components the
sources pass it. -/
def filepathJoin (a b : String) : String := a ++ "/" ++ b

/-- Go `filepath.Dir` on clean paths: everything before the final path
element (`.` when there is no separator, `/` for a root-level entry). -/
def filepathDir (p : String) : String :=
  let parts := goSplit '/' p
  match parts.dropLast with
  | [] => "."
  | ds => if ds.all (· = "") then "/" else goJoin '/' ds

/-- Modelled from the spec: `containerExists` (defined in a source file
not included here) reports whether the identity already resolves to an
engine record. -/
def containerExists (sys : Sys) (containerID : String) : Bool :=
  (sys.records.lookup containerID).isSome

/-- The engine's running predicate (`c.Running()`): the record's running
flag, false when no record exists (a fresh `lxc.NewContainer` handle on
an undefined name reports not running). -/
def engineRunning (sys : Sys) (containerID : String) : Bool :=
  ((sys.records.lookup containerID).map ContainerRecord.running).getD false

/-- Modelled from the spec: `pathExists` (defined in a source file not
included here) stats a path, true when it exists in any form. -/
def pathExists (sys : Sys) (p : String) : Bool :=
  sys.files.contains p || (sys.fifos.lookup p).isSome ||
    (sys.configFiles.lookup p).isSome

/-- The buffered contents of the fifo at `p` (empty when absent). -/
def fifoBuf (sys : Sys) (p : String) : String :=
  (sys.fifos.lookup p).getD ""

/-- Replace the buffer of the fifo at `p`, leaving the set of fifo paths
unchanged. -/
def setFifoBuf (fifos : List (String × String)) (p v : String) :
    List (String × String) :=
  fifos.map (fun kv => if kv.1 = p then (kv.1, v) else kv)

/-- All values registered for a configuration key, in order
(`c.ConfigItem(key)`). -/
def itemValues (items : List (String × String)) (key : String) : List String :=
  (items.filter (fun kv => kv.1 = key)).map Prod.snd

/-- The container's on-disk directory `<LXC_PATH>/<id>`. -/
def containerDirOf (containerID : String) : String :=
  filepathJoin LXC_PATH containerID

/-- The sync fifo path `<container-dir>/syncfifo`. -/
def fifoPathOf (containerID : String) : String :=
  filepathJoin (containerDirOf containerID) "syncfifo"

/-- The generated hook script path `<container-dir>/sync-fifo-wait`. -/
def hookFileOf (containerID : String) : String :=
  filepathJoin (containerDirOf containerID) "sync-fifo-wait"

/-- `lxc.DefaultConfigPath()` coincides with `LXC_PATH`; the saved
configuration file lives at `<LXC_PATH>/<id>/config`. -/
def savedConfigPath (containerID : String) : String :=
  filepathJoin (containerDirOf containerID) "config"

/-- The readiness token the embedded hook script writes into the fifo
(`echo "ready">$fifo`). -/
def readyToken : String := "ready\n"

/-! ### ContainerConfigurer (`configureContainer` in `cmd/create.go`) -/

/-- The `lxc.mount.entry` line for one mount:
`fmt.Sprintf("%s %s %s %s", ms.Source, ms.Destination, ms.Type,
strings.Join(ms.Options, ","))`. -/
def mountEntry (ms : Mount) : String :=
  ms.source ++ " " ++ ms.destination ++ " " ++ ms.mountType ++ " " ++
    goJoin ',' ms.options

/-- The configuration items `configureContainer` registers, in source
order: rootfs path, unmanaged rootfs, each environment variable, each
mount entry, working directory, hostname, the space-joined command line,
and the hook version (the debug-verbosity and logging calls touch no
container configuration and are external, out-of-scope collaborators). -/
def configItemsOf (spec : Spec) : List (String × String) :=
  [("lxc.rootfs.path", spec.root), ("lxc.rootfs.managed", "0")]
  ++ spec.process.env.map (fun envVar => ("lxc.environment", envVar))
  ++ spec.mounts.map (fun ms => ("lxc.mount.entry", mountEntry ms))
  ++ [("lxc.init.cwd", spec.process.cwd),
      ("lxc.uts.name", spec.hostname),
      ("lxc.execute.cmd", goJoin ' ' spec.process.args),
      ("lxc.hook.version", "1")]

/-- `configureContainer`: registers `configItemsOf spec` on the handle
`c`, then persists the full item list to the saved configuration file
via `c.SaveConfigFile` (the terminal step; no mutation after it).
Returns the updated state, the updated record, and the event trace. -/
def configureContainer (sys : Sys) (containerID : String)
    (c : ContainerRecord) (spec : Spec) :
    Sys × ContainerRecord × List Event :=
  let items := configItemsOf spec
  let c := { c with configItems := c.configItems ++ items }
  let scf := savedConfigPath containerID
  ({ sys with configFiles := (scf, c.configItems) :: sys.configFiles },
   c,
   items.map (fun kv => Event.setConfigItem kv.1 kv.2)
     ++ [Event.saveConfigFile scf])

/-! ### SyncBarrier provisioning (`makeSyncFifo` in `cmd/create.go`) -/

/-- `makeSyncFifo`: `unix.Mkfifo(dir/"syncfifo", 0622)` under a cleared
umask; `Mkfifo` fails with `EEXIST` when the path already exists.
Returns the updated state and the fifo path. -/
def makeSyncFifo (sys : Sys) (dir : String) : Except Err (Sys × String) :=
  let fifoFilename := filepathJoin dir "syncfifo"
  if pathExists sys fifoFilename then
    .error (.ioFailure ("failed to make fifo " ++ fifoFilename))
  else
    .ok ({ sys with fifos := (fifoFilename, "") :: sys.fifos }, fifoFilename)

/-! ### `create` (`doCreate` in `cmd/create.go`) -/

/-- `doCreate`, in source order: reject a missing identity; fail with
AlreadyExists when `containerExists`; `lxc.NewContainer` allocates a
fresh engine handle; `readBundleSpec` parses the bundle (its failure is
`bundleLoadFailed`; the parse itself is an external collaborator, so the
parsed `Spec` is taken as input); `os.MkdirAll` the container directory;
write the hook script; register `lxc.hook.start-host`; provision the
sync fifo; `configureContainer`; then `startContainer`.

`startContainer` re-executes the binary's `internal` command, whose
source file is absent.  Modelled from the spec: it instructs the engine
to launch the container's init process, which runs the start-host hook —
the hook writes the readiness token toward the fifo and blocks there —
and `doCreate` returns once the init process is launched and blocked,
with the engine's running predicate still false.  The model installs the
fully configured record at that point (no intermediate state is
observable within one invocation) and places the token in the fifo
buffer, where it stays until a reader drains it. -/
def doCreate (sys : Sys) (containerID : String) (bundle : Option Spec) :
    Except Err (Sys × List Event) :=
  if containerID.length = 0 then .error .usage
  else if containerExists sys containerID then
    .error (.alreadyExists containerID)
  else
    match bundle with
    | none => .error .bundleLoadFailed
    | some spec =>
      let cdir := containerDirOf containerID
      let sys := { sys with files := cdir :: sys.files }
      let hookFile := hookFileOf containerID
      let sys := { sys with files := hookFile :: sys.files }
      let c : ContainerRecord :=
        { running := false,
          configItems := [("lxc.hook.start-host", hookFile)] }
      match makeSyncFifo sys cdir with
      | .error e => .error e
      | .ok (sys, fifoFilename) =>
        match configureContainer sys containerID c spec with
        | (sys, c, cfgEvents) =>
          let sys :=
            { sys with
              records := (containerID, c) :: sys.records,
              fifos := setFifoBuf sys.fifos fifoFilename readyToken }
          .ok (sys,
            [Event.mkdirAll cdir, Event.writeFile hookFile,
             Event.setConfigItem "lxc.hook.start-host" hookFile,
             Event.mkfifo fifoFilename]
            ++ cfgEvents ++ [Event.launchInit containerID])

/-! ### `start` (`doStart` in the start command file) -/

/-- `doStart`, in source order: reject a missing identity;
`lxc.NewContainer` (succeeds whether or not the name is defined — there
is no `containerExists` check here); fail with AlreadyRunning when the
engine's running predicate is true; fail when the sync fifo path does
not exist; otherwise open the fifo read-only and `ioutil.ReadAll` it to
end-of-stream, draining the buffered token, and return after the drain. -/
def doStart (sys : Sys) (containerID : String) :
    Except Err (Sys × List Event) :=
  if containerID.length = 0 then .error .usage
  else if engineRunning sys containerID then
    .error (.alreadyRunning containerID)
  else
    let fifoPath := fifoPathOf containerID
    if pathExists sys fifoPath then
      let data := fifoBuf sys fifoPath
      .ok ({ sys with fifos := setFifoBuf sys.fifos fifoPath "" },
           [Event.openFifoRdonly fifoPath, Event.readAllFifo fifoPath data])
    else .error (.barrierMissing fifoPath)

/-! ### `state` (`doState` in `cmd/state.go`) -/

/-- Modelled from the spec: the OCI version constant reported by `state`
(defined in a source file not included here; its value is irrelevant to
the claims). -/
def CURRENT_OCI_VERSION : String := "1.0.0"

/-- The `specs.State` document `doState` marshals. -/
structure StateOutput where
  version : String
  id : String
  status : String
  pid : Int
  bundle : String
  annotations : List (String × String)
deriving DecidableEq, Repr

/-- The JSON rendering of the state document written to standard output
(field keys as in `specs.State`; `json.Marshal` is an external
collaborator, modelled for the escape-free strings the claims use). -/
def stateJson (s : StateOutput) : String :=
  "\x7b\"ociVersion\":\"" ++ s.version ++ "\",\"id\":\"" ++ s.id ++
    "\",\"status\":\"" ++ s.status ++ "\",\"pid\":" ++ toString s.pid ++
    ",\"bundle\":\"" ++ s.bundle ++ "\",\"annotations\":\x7b\x7d\x7d"

/-- `doState`, in source order: reject a missing identity; fail with
NotFound unless `containerExists`; load the record; `status` is
`running` iff the engine's running predicate holds, else `stopped`;
`pid` is the constant 0; the bundle path is
`filepath.Dir(c.ConfigItem("lxc.rootfs.path")[0])` — the index is taken
without checking the value list, so an empty list is a Go index-out-of-
range panic, not a returned error (`GoOutcome.panics`); annotations are
the empty mapping; the document is marshalled and printed once to
standard output (returned as the list of stdout writes). -/
def doState (sys : Sys) (containerID : String) :
    GoOutcome (StateOutput × List String) :=
  if containerID.length = 0 then .fails .usage
  else
    match sys.records.lookup containerID with
    | none => .fails (.notFound containerID)
    | some r =>
      let status := if r.running then "running" else "stopped"
      let pid : Int := 0
      match itemValues r.configItems "lxc.rootfs.path" with
      | [] => .panics
      | v :: _ =>
        let bundlePath := filepathDir v
        let s : StateOutput :=
          { version := CURRENT_OCI_VERSION, id := containerID,
            status := status, pid := pid, bundle := bundlePath,
            annotations := [] }
        .ok (s, [stateJson s])

/-! ### Read-back of the saved configuration (for the round-trip claim) -/

/-- Modelled from the spec: parsing one saved `lxc.mount.entry` line back
into a mount — the natural inverse of `mountEntry`, splitting the line
into its four space-separated fields and the options on commas. -/
def decodeMountEntry (v : String) : Option Mount :=
  match goSplit ' ' v with
  | [s, d, t, o] => some ⟨s, d, t, goSplit ',' o⟩
  | _ => none

/-- Modelled from the spec: recovering the argument vector from the saved
`lxc.execute.cmd` value — the natural inverse of the space-join. -/
def decodeArgs (v : String) : List String := goSplit ' ' v

deriving instance DecidableEq for Except

/-! ### Inversion lemmas -/

/-- The closed form of the engine record a successful `doCreate` installs. -/
def createdRecord (containerID : String) (spec : Spec) : ContainerRecord :=
  { running := false,
    configItems :=
      ("lxc.hook.start-host", hookFileOf containerID) :: configItemsOf spec }

/-- The closed form of the state a successful `doCreate` produces. -/
def createdSys (sys : Sys) (containerID : String) (spec : Spec) : Sys :=
  { records := (containerID, createdRecord containerID spec) :: sys.records,
    files := hookFileOf containerID :: containerDirOf containerID :: sys.files,
    fifos := setFifoBuf ((fifoPathOf containerID, "") :: sys.fifos)
      (fifoPathOf containerID) readyToken,
    configFiles :=
      (savedConfigPath containerID,
       (createdRecord containerID spec).configItems) :: sys.configFiles }

/-- The closed form of a successful `doCreate`'s event trace. -/
def createdEvents (containerID : String) (spec : Spec) : List Event :=
  [Event.mkdirAll (containerDirOf containerID),
   Event.writeFile (hookFileOf containerID),
   Event.setConfigItem "lxc.hook.start-host" (hookFileOf containerID),
   Event.mkfifo (fifoPathOf containerID)]
  ++ ((configItemsOf spec).map (fun kv => Event.setConfigItem kv.1 kv.2)
      ++ [Event.saveConfigFile (savedConfigPath containerID)])
  ++ [Event.launchInit containerID]

theorem makeSyncFifo_ok {sys : Sys} {dir : String} {r : Sys × String}
    (h : makeSyncFifo sys dir = .ok r) :
    pathExists sys (filepathJoin dir "syncfifo") = false ∧
      r = ({ sys with fifos := (filepathJoin dir "syncfifo", "") :: sys.fifos },
           filepathJoin dir "syncfifo") := by
  unfold makeSyncFifo at h
  dsimp only at h
  split at h
  · exact absurd h (by simp)
  · next hne =>
    exact ⟨by simpa using hne, (Except.ok.inj h).symm⟩

/-- A successful `doCreate` is fully determined: the identity is
nonempty and fresh, the fifo path was free, and the resulting state and
trace take the closed forms above. -/
theorem doCreate_ok {sys : Sys} {containerID : String} {bundle : Option Spec}
    {out : Sys × List Event}
    (h : doCreate sys containerID bundle = .ok out) :
    ∃ spec, bundle = some spec ∧
      containerID.length ≠ 0 ∧
      containerExists sys containerID = false ∧
      out = (createdSys sys containerID spec,
             createdEvents containerID spec) := by
  unfold doCreate at h
  dsimp only at h
  split at h
  · exact absurd h (by simp)
  split at h
  · exact absurd h (by simp)
  next hid hex =>
  split at h
  · exact absurd h (by simp)
  next spec =>
  refine ⟨spec, rfl, hid, by simpa using hex, ?_⟩
  split at h
  · exact absurd h (by simp)
  next mkOut hmk =>
  obtain ⟨hfree, hr⟩ := makeSyncFifo_ok hmk
  rw [Prod.mk.injEq] at hr
  obtain ⟨h1, h2⟩ := hr
  subst h1
  subst h2
  have h' := Except.ok.inj h
  subst h'
  simp only [configureContainer, createdSys, createdEvents, createdRecord,
    fifoPathOf]
  simp

theorem lookup_setFifoBuf (f : List (String × String)) (p v : String) :
    (setFifoBuf f p v).lookup p = (f.lookup p).map (fun _ => v) := by
  induction f with
  | nil => rfl
  | cons kv t ih =>
    obtain ⟨k, w⟩ := kv
    simp only [setFifoBuf, List.map_cons] at ih ⊢
    by_cases hk : k = p
    · rw [if_pos hk]
      have hpk : (p == k) = true := beq_iff_eq.2 hk.symm
      simp [List.lookup, hpk]
    · rw [if_neg hk]
      have hpk : (p == k) = false := beq_eq_false_iff_ne.2 fun he => hk he.symm
      simp [List.lookup, hpk, ih]

theorem map_fst_setFifoBuf (f : List (String × String)) (p v : String) :
    (setFifoBuf f p v).map Prod.fst = f.map Prod.fst := by
  induction f with
  | nil => rfl
  | cons kv t ih =>
    simp only [setFifoBuf, List.map_cons] at *
    split <;> simp_all

theorem lookup_isSome_setFifoBuf (f : List (String × String)) (p q v : String) :
    ((setFifoBuf f p v).lookup q).isSome = (f.lookup q).isSome := by
  induction f with
  | nil => rfl
  | cons kv t ih =>
    obtain ⟨k, w⟩ := kv
    simp only [setFifoBuf, List.map_cons] at ih ⊢
    by_cases hk : k = p
    · rw [if_pos hk]
      by_cases hq : q = k
      · have hqk : (q == k) = true := beq_iff_eq.2 hq
        simp [List.lookup, hqk]
      · have hqk : (q == k) = false := beq_eq_false_iff_ne.2 hq
        simp [List.lookup, hqk, ih]
    · rw [if_neg hk]
      by_cases hq : q = k
      · have hqk : (q == k) = true := beq_iff_eq.2 hq
        simp [List.lookup, hqk]
      · have hqk : (q == k) = false := beq_eq_false_iff_ne.2 hq
        simp [List.lookup, hqk, ih]

/-- A successful `doStart` is fully determined: the identity is
nonempty, the engine does not report it running, the sync fifo path
exists, and the result drains the fifo buffer after an open-then-read
trace. -/
theorem doStart_ok {sys : Sys} {containerID : String} {out : Sys × List Event}
    (h : doStart sys containerID = .ok out) :
    containerID.length ≠ 0 ∧
      engineRunning sys containerID = false ∧
      pathExists sys (fifoPathOf containerID) = true ∧
      out = ({ sys with
                fifos := setFifoBuf sys.fifos (fifoPathOf containerID) "" },
             [Event.openFifoRdonly (fifoPathOf containerID),
              Event.readAllFifo (fifoPathOf containerID)
                (fifoBuf sys (fifoPathOf containerID))]) := by
  unfold doStart at h
  dsimp only at h
  split at h
  · exact absurd h (by simp)
  split at h
  · exact absurd h (by simp)
  next hid hrun =>
  split at h
  · next hfifo =>
    exact ⟨hid, by simpa using hrun, hfifo, (Except.ok.inj h).symm⟩
  · exact absurd h (by simp)

/-- A successful `doState` is fully determined: the identity is
nonempty, a record exists, its rootfs configuration is nonempty, and the
output document and single stdout write take their closed forms. -/
theorem doState_ok {sys : Sys} {containerID : String}
    {out : StateOutput × List String}
    (h : doState sys containerID = .ok out) :
    containerID.length ≠ 0 ∧
      ∃ r v vs, sys.records.lookup containerID = some r ∧
        itemValues r.configItems "lxc.rootfs.path" = v :: vs ∧
        out = ({ version := CURRENT_OCI_VERSION, id := containerID,
                 status := if r.running then "running" else "stopped",
                 pid := 0, bundle := filepathDir v, annotations := [] },
               [stateJson out.1]) := by
  unfold doState at h
  split at h
  · exact absurd h (by simp)
  next hid =>
  split at h
  · exact absurd h (by simp)
  next r hr =>
  dsimp only at h
  split at h
  · exact absurd h (by simp)
  next v vs hvals =>
  refine ⟨hid, r, v, vs, hr, hvals, ?_⟩
  have h' := GoOutcome.ok.inj h
  subst h'
  rfl

/-! ### Concrete fixtures used by witnesses and counterexamples -/

/-- The empty initial state: no records, no files, no fifos. -/
def sys0 : Sys := ⟨[], [], [], []⟩

/-- A small well-formed bundle specification. -/
def specW : Spec :=
  { root := "/var/lib/lxc/c1/rootfs",
    mounts := [⟨"proc", "/proc", "proc", ["rw"]⟩],
    process := { env := ["PATH=/bin"], args := ["hello"], cwd := "/",
                 terminal := false },
    hostname := "c1host" }

/-- The state and trace of a successful `create c1` from the empty state. -/
def createdW : Sys × List Event :=
  match doCreate sys0 "c1" (some specW) with
  | .ok r => r
  | .error _ => (sys0, [])

/-- The state and trace of a successful `start c1` after `createdW`. -/
def startedW : Sys × List Event :=
  match doStart createdW.1 "c1" with
  | .ok r => r
  | .error _ => (sys0, [])

/-- A state whose `c1` record the engine reports as running. -/
def sysRun : Sys :=
  ⟨[("c1", ⟨true, [("lxc.rootfs.path", "/var/lib/lxc/c1/rootfs")]⟩)],
   ["/var/lib/lxc/c1"], [("/var/lib/lxc/c1/syncfifo", "")], []⟩

/-- A state whose `c2` record has no `lxc.rootfs.path` value at all. -/
def sysNoCfg : Sys := ⟨[("c2", ⟨false, []⟩)], [], [], []⟩

theorem getD_lookup_setFifoBuf (f : List (String × String)) (p : String) :
    (((setFifoBuf f p "").lookup p).getD "") = "" := by
  rw [lookup_setFifoBuf]
  cases f.lookup p <;> rfl

/-! ### Claims about `start` -/

/-- C1: for every container whose sync pipe exists and whose engine
record is not reported running, a successful `Start` opens the pipe
read-only, reads it to end-of-stream — draining the writer-side release
token buffered in the fifo — and returns only after that drain
completes: the open followed by the full read are the only actions of
the call, in that order, and the fifo buffer is empty once the call
returns. -/
theorem C1_start_drains_barrier (sys : Sys) (containerID : String)
    (hid : containerID.length ≠ 0)
    (hrun : engineRunning sys containerID = false)
    (hfifo : pathExists sys (fifoPathOf containerID) = true) :
    ∃ sys2, doStart sys containerID =
        .ok (sys2,
          [Event.openFifoRdonly (fifoPathOf containerID),
           Event.readAllFifo (fifoPathOf containerID)
             (fifoBuf sys (fifoPathOf containerID))]) ∧
      fifoBuf sys2 (fifoPathOf containerID) = "" := by
  refine ⟨{ sys with
      fifos := setFifoBuf sys.fifos (fifoPathOf containerID) "" }, ?_, ?_⟩
  · unfold doStart
    rw [if_neg hid, if_neg (by simp [hrun])]
    dsimp only
    rw [if_pos hfifo]
  · show (((setFifoBuf sys.fifos (fifoPathOf containerID) "").lookup
      (fifoPathOf containerID)).getD "") = ""
    exact getD_lookup_setFifoBuf sys.fifos (fifoPathOf containerID)

/-- C1 witness: instantiated on the freshly created container `c1`. -/
theorem C1_start_drains_barrier_witness :
    ∃ sys2, doStart createdW.1 "c1" =
        .ok (sys2,
          [Event.openFifoRdonly (fifoPathOf "c1"),
           Event.readAllFifo (fifoPathOf "c1")
             (fifoBuf createdW.1 (fifoPathOf "c1"))]) ∧
      fifoBuf sys2 (fifoPathOf "c1") = "" :=
  C1_start_drains_barrier createdW.1 "c1" (by decide) (by decide) (by decide)

/-- C5 counterexample: for the identity `c1`, never passed to `Create`
(the state holds no engine record for it), `Start` does not fail with
`NotFound` — it fails with the missing-sync-fifo error instead, because
`doStart` performs no record-existence check. -/
theorem C5_counterexample :
    sys0.records.lookup "c1" = none ∧
      doStart sys0 "c1" = .error (.barrierMissing (fifoPathOf "c1")) ∧
      doStart sys0 "c1" ≠ .error (.notFound "c1") := by decide

/-- C5 (amended): for every identity never passed to `Create` — no
engine record and no sync fifo on disk — `Start` fails, but with the
missing-sync-fifo (`BarrierMissing`) error rather than `NotFound`: the
fresh engine handle reports not-running and the fifo-existence check is
what rejects the call. -/
theorem C5_start_unknown_identity (sys : Sys) (containerID : String)
    (hid : containerID.length ≠ 0)
    (hrec : sys.records.lookup containerID = none)
    (hfifo : pathExists sys (fifoPathOf containerID) = false) :
    doStart sys containerID =
      .error (.barrierMissing (fifoPathOf containerID)) := by
  have hrun : engineRunning sys containerID = false := by
    simp [engineRunning, hrec]
  unfold doStart
  rw [if_neg hid, if_neg (by simp [hrun])]
  dsimp only
  rw [if_neg (by simp [hfifo])]

/-- C5 witness: instantiated on the empty state. -/
theorem C5_start_unknown_identity_witness :
    doStart sys0 "c1" = .error (.barrierMissing (fifoPathOf "c1")) :=
  C5_start_unknown_identity sys0 "c1" (by decide) (by decide) (by decide)

/-- C6: whenever the engine running predicate reports a container as
running, `Start` fails with `AlreadyRunning` and never reaches the
barrier: the failure is decided before any fifo operation, and the error
return carries no state change and no events — in particular a second
`Start` issued once the engine reports the container running after the
first release is rejected, never a silent no-op success. -/
theorem C6_start_already_running (sys : Sys) (containerID : String)
    (hid : containerID.length ≠ 0)
    (hrun : engineRunning sys containerID = true) :
    doStart sys containerID = .error (.alreadyRunning containerID) := by
  unfold doStart
  rw [if_neg hid, if_pos hrun]

/-- C6 witness: instantiated on a state whose record runs. -/
theorem C6_start_already_running_witness :
    doStart sysRun "c1" = .error (.alreadyRunning "c1") :=
  C6_start_already_running sysRun "c1" (by decide) (by decide)

/-- C10: a successful `Start` leaves the sync pipe in place on disk at
`<container-dir>/syncfifo`: the plain files, the set of fifo paths, the
engine records and the saved configuration files are all unchanged (only
the fifo buffer is consumed), and the fifo path still exists when the
call returns. -/
theorem C10_start_preserves_fifo (sys : Sys) (containerID : String)
    (sys2 : Sys) (evs : List Event)
    (h : doStart sys containerID = .ok (sys2, evs)) :
    sys2.files = sys.files ∧
      sys2.fifos.map Prod.fst = sys.fifos.map Prod.fst ∧
      sys2.records = sys.records ∧
      sys2.configFiles = sys.configFiles ∧
      pathExists sys2 (fifoPathOf containerID) = true := by
  obtain ⟨hid, hrun, hfifo, hout⟩ := doStart_ok h
  have hs : sys2 = { sys with
      fifos := setFifoBuf sys.fifos (fifoPathOf containerID) "" } :=
    congrArg Prod.fst hout
  subst hs
  refine ⟨rfl, map_fst_setFifoBuf sys.fifos _ _, rfl, rfl, ?_⟩
  have hpe : pathExists { sys with
      fifos := setFifoBuf sys.fifos (fifoPathOf containerID) "" }
      (fifoPathOf containerID) = pathExists sys (fifoPathOf containerID) := by
    simp [pathExists, lookup_isSome_setFifoBuf]
  rw [hpe, hfifo]

/-- C10 witness: instantiated on the freshly created container `c1`. -/
theorem C10_start_preserves_fifo_witness :
    startedW.1.files = createdW.1.files ∧
      startedW.1.fifos.map Prod.fst = createdW.1.fifos.map Prod.fst ∧
      startedW.1.records = createdW.1.records ∧
      startedW.1.configFiles = createdW.1.configFiles ∧
      pathExists startedW.1 (fifoPathOf "c1") = true :=
  C10_start_preserves_fifo createdW.1 "c1" startedW.1 startedW.2 (by decide)

/-! ### Claims about `create` -/

/-- C2: in every successful `Create`, the sync pipe is provisioned
(created on disk) strictly before the engine is instructed to launch the
container's init process: the event trace splits at the `mkfifo` of the
sync fifo path, no event preceding it is a launch instruction, and the
launch instruction occurs after it. -/
theorem C2_fifo_before_launch (sys : Sys) (containerID : String)
    (bundle : Option Spec) (sys2 : Sys) (evs : List Event)
    (h : doCreate sys containerID bundle = .ok (sys2, evs)) :
    ∃ pre suf, evs = pre ++ Event.mkfifo (fifoPathOf containerID) :: suf ∧
      (∀ e ∈ pre, ∀ j, e ≠ Event.launchInit j) ∧
      Event.launchInit containerID ∈ suf := by
  obtain ⟨spec, hb, hid, hex, hout⟩ := doCreate_ok h
  have he : evs = createdEvents containerID spec := congrArg Prod.snd hout
  subst he
  refine ⟨[Event.mkdirAll (containerDirOf containerID),
           Event.writeFile (hookFileOf containerID),
           Event.setConfigItem "lxc.hook.start-host" (hookFileOf containerID)],
          ((configItemsOf spec).map (fun kv => Event.setConfigItem kv.1 kv.2)
            ++ [Event.saveConfigFile (savedConfigPath containerID)])
            ++ [Event.launchInit containerID], ?_, ?_, ?_⟩
  · simp [createdEvents]
  · intro e he j
    simp only [List.mem_cons, List.not_mem_nil, or_false] at he
    rcases he with rfl | rfl | rfl <;> simp
  · simp

/-- C2 witness: instantiated on the concrete `create c1` run. -/
theorem C2_fifo_before_launch_witness :
    ∃ pre suf, createdW.2 = pre ++ Event.mkfifo (fifoPathOf "c1") :: suf ∧
      (∀ e ∈ pre, ∀ j, e ≠ Event.launchInit j) ∧
      Event.launchInit "c1" ∈ suf :=
  C2_fifo_before_launch sys0 "c1" (some specW) createdW.1 createdW.2 (by decide)

/-- C3: `Create` returns once the container's init process has been
launched and is blocked at the barrier, and does not wait for the
barrier to be released: the launch instruction is the final event of a
successful `Create`'s trace, the trace contains no fifo-open or
fifo-read event (the call never performs the release-side drain), and
the release token is still buffered unread in the sync fifo when the
call returns. -/
theorem C3_create_returns_at_launch (sys : Sys) (containerID : String)
    (bundle : Option Spec) (sys2 : Sys) (evs : List Event)
    (h : doCreate sys containerID bundle = .ok (sys2, evs)) :
    evs.getLast? = some (Event.launchInit containerID) ∧
      (∀ p, Event.openFifoRdonly p ∉ evs) ∧
      (∀ p d, Event.readAllFifo p d ∉ evs) ∧
      fifoBuf sys2 (fifoPathOf containerID) = readyToken := by
  obtain ⟨spec, hb, hid, hex, hout⟩ := doCreate_ok h
  have he : evs = createdEvents containerID spec := congrArg Prod.snd hout
  have hs : sys2 = createdSys sys containerID spec := congrArg Prod.fst hout
  subst he
  subst hs
  refine ⟨?_, ?_, ?_, ?_⟩
  · show ((_ ++ _) ++ [Event.launchInit containerID]).getLast? = _
    rw [List.getLast?_concat]
  · intro p
    simp [createdEvents]
  · intro p d
    simp [createdEvents]
  · show ((setFifoBuf ((fifoPathOf containerID, "") ::
      sys.fifos) (fifoPathOf containerID) readyToken).lookup
        (fifoPathOf containerID)).getD "" = readyToken
    rw [lookup_setFifoBuf]
    simp [List.lookup]

/-- C3 witness: instantiated on the concrete `create c1` run. -/
theorem C3_create_returns_at_launch_witness :
    createdW.2.getLast? = some (Event.launchInit "c1") ∧
      (∀ p, Event.openFifoRdonly p ∉ createdW.2) ∧
      (∀ p d, Event.readAllFifo p d ∉ createdW.2) ∧
      fifoBuf createdW.1 (fifoPathOf "c1") = readyToken :=
  C3_create_returns_at_launch sys0 "c1" (some specW) createdW.1 createdW.2
    (by decide)

/-- C4: `Create` is not idempotent: a successful `Create` leaves an
engine record that exists and is not yet running (the container was
never started), and any second `Create` with the same identity then
fails with `AlreadyExists` — the existence check precedes every other
action and the error return carries no state, so the second call makes
no changes. -/
theorem C4_create_not_idempotent (sys : Sys) (containerID : String)
    (bundle : Option Spec) (sys2 : Sys) (evs : List Event)
    (h : doCreate sys containerID bundle = .ok (sys2, evs)) :
    containerExists sys2 containerID = true ∧
      engineRunning sys2 containerID = false ∧
      ∀ bundle2, doCreate sys2 containerID bundle2 =
        .error (.alreadyExists containerID) := by
  obtain ⟨spec, hb, hid, hex, hout⟩ := doCreate_ok h
  have hs : sys2 = createdSys sys containerID spec := congrArg Prod.fst hout
  subst hs
  have hex2 : containerExists (createdSys sys containerID spec)
      containerID = true := by
    simp [containerExists, createdSys, List.lookup]
  refine ⟨hex2, ?_, ?_⟩
  · simp [engineRunning, createdSys, List.lookup, createdRecord]
  · intro bundle2
    unfold doCreate
    rw [if_neg hid, if_pos hex2]

/-- C4 witness: instantiated on the concrete `create c1` run, with the
second `Create` bundle instantiated to the same spec. -/
theorem C4_create_not_idempotent_witness :
    containerExists createdW.1 "c1" = true ∧
      engineRunning createdW.1 "c1" = false ∧
      doCreate createdW.1 "c1" (some specW) =
        .error (.alreadyExists "c1") :=
  ⟨(C4_create_not_idempotent sys0 "c1" (some specW) createdW.1 createdW.2
      (by decide)).1,
   (C4_create_not_idempotent sys0 "c1" (some specW) createdW.1 createdW.2
      (by decide)).2.1,
   (C4_create_not_idempotent sys0 "c1" (some specW) createdW.1 createdW.2
      (by decide)).2.2 (some specW)⟩

/-! ### Claims about `state` -/

/-- The state document and stdout writes of a successful `state c1`
after `createdW`. -/
def stateW : StateOutput × List String :=
  match doState createdW.1 "c1" with
  | .ok r => r
  | _ => (⟨"", "", "", 0, "", []⟩, [])

/-- C8: whenever `state` succeeds on a container, it emits exactly one
JSON document on standard output carrying the fields version, id,
status, pid, bundle and annotations, where status is exactly `running`
when the engine's running predicate is true and `stopped` otherwise,
pid is always 0, and annotations is always the empty mapping. -/
theorem C8_state_output (sys : Sys) (containerID : String)
    (out : StateOutput) (stdout : List String)
    (h : doState sys containerID = .ok (out, stdout)) :
    stdout = [stateJson out] ∧
      out.version = CURRENT_OCI_VERSION ∧
      out.id = containerID ∧
      (out.status =
        if engineRunning sys containerID then "running" else "stopped") ∧
      (out.status = "running" ↔ engineRunning sys containerID = true) ∧
      out.pid = 0 ∧
      out.annotations = [] := by
  obtain ⟨hid, r, v, vs, hr, hvals, hout⟩ := doState_ok h
  have hrun : engineRunning sys containerID = r.running := by
    simp [engineRunning, hr]
  have ho : out =
      { version := CURRENT_OCI_VERSION, id := containerID,
        status := if r.running then "running" else "stopped",
        pid := 0, bundle := filepathDir v, annotations := [] } :=
    congrArg Prod.fst hout
  have hso : stdout = [stateJson out] := by
    have := congrArg Prod.snd hout
    simpa using this
  subst ho
  refine ⟨hso, rfl, rfl, by rw [hrun], ?_, rfl, rfl⟩
  rw [hrun]
  cases r.running <;> simp

/-- C8 witness: instantiated on the freshly created container `c1`. -/
theorem C8_state_output_witness :
    stateW.2 = [stateJson stateW.1] ∧
      stateW.1.version = CURRENT_OCI_VERSION ∧
      stateW.1.id = "c1" ∧
      (stateW.1.status =
        if engineRunning createdW.1 "c1" then "running" else "stopped") ∧
      (stateW.1.status = "running" ↔ engineRunning createdW.1 "c1" = true) ∧
      stateW.1.pid = 0 ∧
      stateW.1.annotations = [] :=
  C8_state_output createdW.1 "c1" stateW.1 stateW.2 (by decide)

/-- C9: `state` derives the reported bundle path as the parent directory
of the first value of the engine's `lxc.rootfs.path` configuration item
without checking that a value exists: for every record in which that
item has at least one value the operation is total and reports
`filepath.Dir` of the first value, and for a record whose value list is
empty the operation is not total — a Go index-out-of-range panic, not a
returned error. -/
theorem C9_state_bundle_totality (sys : Sys) (containerID : String)
    (r : ContainerRecord)
    (hid : containerID.length ≠ 0)
    (hr : sys.records.lookup containerID = some r) :
    (∀ v vs, itemValues r.configItems "lxc.rootfs.path" = v :: vs →
        ∃ out stdout, doState sys containerID = .ok (out, stdout) ∧
          out.bundle = filepathDir v) ∧
      (itemValues r.configItems "lxc.rootfs.path" = [] →
        doState sys containerID = .panics) := by
  constructor
  · intro v vs hvals
    have hds : doState sys containerID =
        .ok ({ version := CURRENT_OCI_VERSION, id := containerID,
               status := if r.running then "running" else "stopped",
               pid := 0, bundle := filepathDir v, annotations := [] },
             [stateJson
               { version := CURRENT_OCI_VERSION, id := containerID,
                 status := if r.running then "running" else "stopped",
                 pid := 0, bundle := filepathDir v, annotations := [] }]) := by
      simp [doState, hid, hr, hvals]
    exact ⟨_, _, hds, rfl⟩
  · intro hvals
    simp [doState, hid, hr, hvals]

/-- C9 witness: the created `c1` record has a rootfs value and `state`
is total on it; the record of `c2` has none and `state` panics. -/
theorem C9_state_bundle_totality_witness :
    (∃ out stdout, doState createdW.1 "c1" = .ok (out, stdout) ∧
        out.bundle = filepathDir "/var/lib/lxc/c1/rootfs") ∧
      doState sysNoCfg "c2" = .panics :=
  ⟨(C9_state_bundle_totality createdW.1 "c1" (createdRecord "c1" specW)
      (by decide) (by decide)).1 "/var/lib/lxc/c1/rootfs" [] (by decide),
   (C9_state_bundle_totality sysNoCfg "c2" ⟨false, []⟩
      (by decide) (by decide)).2 (by decide)⟩

/-! ### The saved-configuration round trip -/

theorem string_mk_data (s : String) : String.mk s.data = s := rfl

theorem itemValues_env (h : String) (spec : Spec) :
    itemValues (("lxc.hook.start-host", h) :: configItemsOf spec)
      "lxc.environment" = spec.process.env := by
  simp [itemValues, configItemsOf, List.filter_append, List.filter_map,
    Function.comp_def]

theorem itemValues_mounts (h : String) (spec : Spec) :
    itemValues (("lxc.hook.start-host", h) :: configItemsOf spec)
      "lxc.mount.entry" = spec.mounts.map mountEntry := by
  simp [itemValues, configItemsOf, List.filter_append, List.filter_map,
    Function.comp_def]

theorem itemValues_args (h : String) (spec : Spec) :
    itemValues (("lxc.hook.start-host", h) :: configItemsOf spec)
      "lxc.execute.cmd" = [goJoin ' ' spec.process.args] := by
  simp [itemValues, configItemsOf, List.filter_append, List.filter_map,
    Function.comp_def]

theorem space_char_ne_comma : (' ' : Char) ≠ ',' := by decide

theorem mountEntry_data (m : Mount) :
    (mountEntry m).data =
      m.source.data ++ ' ' :: (m.destination.data ++ ' ' ::
        (m.mountType.data ++ ' ' :: (goJoin ',' m.options).data)) := by
  simp [mountEntry, string_data_append]

theorem goSplit_mountEntry (m : Mount)
    (hs : ' ' ∉ m.source.data) (hd : ' ' ∉ m.destination.data)
    (ht : ' ' ∉ m.mountType.data)
    (hopt : ∀ o ∈ m.options, ' ' ∉ o.data) :
    goSplit ' ' (mountEntry m) =
      [m.source, m.destination, m.mountType, goJoin ',' m.options] := by
  have hj : ' ' ∉ (goJoin ',' m.options).data := by
    rw [goJoin_data]
    exact not_mem_goJoinL ',' ' ' (m.options.map String.data)
      space_char_ne_comma
      (by intro p hp
          rcases List.mem_map.1 hp with ⟨o, ho, rfl⟩
          exact hopt o ho)
  unfold goSplit
  rw [mountEntry_data,
    splitCharL_append_sep ' ' _ _ hs,
    splitCharL_append_sep ' ' _ _ hd,
    splitCharL_append_sep ' ' _ _ ht,
    splitCharL_no_sep ' ' _ hj]
  simp [string_mk_data]

/-- The mount-entry round trip: decoding the saved entry recovers the
mount, provided its fields are space-free, its option list is nonempty
and its options are free of spaces and commas. -/
theorem decodeMountEntry_mountEntry (m : Mount)
    (hs : ' ' ∉ m.source.data) (hd : ' ' ∉ m.destination.data)
    (ht : ' ' ∉ m.mountType.data) (hne : m.options ≠ [])
    (hopt : ∀ o ∈ m.options, ' ' ∉ o.data ∧ ',' ∉ o.data) :
    decodeMountEntry (mountEntry m) = some m := by
  unfold decodeMountEntry
  rw [goSplit_mountEntry m hs hd ht (fun o ho => (hopt o ho).1)]
  show some
      { source := m.source, destination := m.destination,
        mountType := m.mountType,
        options := goSplit ',' (goJoin ',' m.options) } = some m
  rw [show goSplit ',' (goJoin ',' m.options) = m.options from
    goSplit_goJoin ',' m.options hne (fun o ho => (hopt o ho).2)]

/-- A bundle whose command line has an argument with an embedded space
(`echo hi`) — a perfectly legal OCI process specification. -/
def cexSpec : Spec :=
  { root := "/var/lib/lxc/cx/rootfs", mounts := [],
    process := { env := [], args := ["sh", "-c", "echo hi"], cwd := "/",
                 terminal := false },
    hostname := "cx" }

/-- The saved configuration items a successful `create cx` writes for
`cexSpec`. -/
def cexItems : List (String × String) :=
  match doCreate sys0 "cx" (some cexSpec) with
  | .ok (s, _) => (s.configFiles.lookup (savedConfigPath "cx")).getD []
  | .error _ => []

/-- C7 counterexample: the command line `["sh", "-c", "echo hi"]`
written by the configurer into the saved configuration file reads back
as the four arguments `["sh", "-c", "echo", "hi"]` — the space-joined
`lxc.execute.cmd` value loses the grouping of an argument containing a
space, so the arguments are not recoverable without loss for every
bundle spec. -/
theorem C7_counterexample :
    cexSpec.process.args = ["sh", "-c", "echo hi"] ∧
      (itemValues cexItems "lxc.execute.cmd").map decodeArgs =
        [["sh", "-c", "echo", "hi"]] ∧
      [["sh", "-c", "echo", "hi"]] ≠ [cexSpec.process.args] := by decide

/-- C7 (amended): for every bundle spec whose argument list is nonempty
with space-free arguments and whose mounts have space-free source,
destination and type, a nonempty option list, and options free of
spaces and commas, the mount list, environment list and command line
written into the saved configuration file by a successful `Create` are
read back without loss of source, destination, type or option ordering
(the environment list is recovered unconditionally). -/
theorem C7_roundtrip (sys : Sys) (containerID : String) (spec : Spec)
    (sys2 : Sys) (evs : List Event)
    (h : doCreate sys containerID (some spec) = .ok (sys2, evs))
    (hargsne : spec.process.args ≠ [])
    (hargs : ∀ a ∈ spec.process.args, ' ' ∉ a.data)
    (hm : ∀ m ∈ spec.mounts, ' ' ∉ m.source.data ∧
      ' ' ∉ m.destination.data ∧ ' ' ∉ m.mountType.data ∧
      m.options ≠ [] ∧ ∀ o ∈ m.options, ' ' ∉ o.data ∧ ',' ∉ o.data) :
    ∃ items,
      sys2.configFiles.lookup (savedConfigPath containerID) = some items ∧
      itemValues items "lxc.environment" = spec.process.env ∧
      (itemValues items "lxc.mount.entry").map decodeMountEntry =
        spec.mounts.map some ∧
      (itemValues items "lxc.execute.cmd").map decodeArgs =
        [spec.process.args] := by
  obtain ⟨spec2, hb, hid, hex, hout⟩ := doCreate_ok h
  have hspec : spec2 = spec := (Option.some.inj hb).symm
  subst hspec
  have hs2 : sys2 = createdSys sys containerID spec2 := congrArg Prod.fst hout
  subst hs2
  refine ⟨("lxc.hook.start-host", hookFileOf containerID) ::
    configItemsOf spec2, ?_, ?_, ?_, ?_⟩
  · simp [createdSys, createdRecord, List.lookup]
  · exact itemValues_env _ spec2
  · rw [itemValues_mounts _ spec2, List.map_map]
    exact List.map_congr_left (fun m hmem => by
      obtain ⟨h1, h2, h3, h4, h5⟩ := hm m hmem
      exact decodeMountEntry_mountEntry m h1 h2 h3 h4 h5)
  · rw [itemValues_args _ spec2]
    have hd : decodeArgs (goJoin ' ' spec2.process.args) =
        spec2.process.args :=
      goSplit_goJoin ' ' spec2.process.args hargsne hargs
    simp [hd]

/-- C7 witness: instantiated on the concrete `create c1` run of `specW`,
whose arguments and mounts satisfy the separator-freedom conditions. -/
theorem C7_roundtrip_witness :
    ∃ items,
      createdW.1.configFiles.lookup (savedConfigPath "c1") = some items ∧
      itemValues items "lxc.environment" = specW.process.env ∧
      (itemValues items "lxc.mount.entry").map decodeMountEntry =
        specW.mounts.map some ∧
      (itemValues items "lxc.execute.cmd").map decodeArgs =
        [specW.process.args] :=
  C7_roundtrip sys0 "c1" specW createdW.1 createdW.2 (by decide)
    (by decide) (by decide) (by decide)

end CrioLxc
